import Mathlib

/-!
Verification of the Hangul study application core, shallowly embedded from
the Python source:

* `app/domain/hangul_compose.py` — pure CV/LVT syllable composition,
* `app/domain/hangul_unicode.py` — a second composer that raises on bad input,
* `app/controllers/study_item_repository.py` — YAML-backed study items and
  precomposed-syllable decomposition,
* `app/controllers/syllable_navigation.py` — index navigation with wraparound,
* `app/controllers/playback_sequence_controller.py` — the timer-driven
  playback sequencer with generation-token cancellation.

Python strings are modelled as Lean `String`, Python `int` as `Int` (or `Nat`
where the source value is provably non-negative), a raised exception as the
`Except.error` branch, and `None` as `Option.none`.
-/

namespace PyStr

/-- The whitespace characters recognised by Python `str.strip()`:
ASCII whitespace, the C1/latin spacing characters and the Unicode
space separators. -/
def isPySpace (c : Char) : Bool :=
  let n := c.toNat
  (9 ≤ n ∧ n ≤ 13) ∨ n = 32 ∨ (28 ≤ n ∧ n ≤ 31) ∨ n = 0x85 ∨ n = 0xA0 ∨
    n = 0x1680 ∨ (0x2000 ≤ n ∧ n ≤ 0x200A) ∨ n = 0x2028 ∨ n = 0x2029 ∨
    n = 0x202F ∨ n = 0x205F ∨ n = 0x3000

/-- Python `s.strip()`: drop leading and trailing whitespace. -/
def strip (s : String) : String :=
  String.mk (((s.data.dropWhile isPySpace).reverse.dropWhile isPySpace).reverse)

end PyStr

namespace HangulCompose

/-- Leading consonants (Choseong), `CHOSEONG` in `hangul_compose.py`. -/
def CHOSEONG : List String :=
  ["ㄱ", "ㄲ", "ㄴ", "ㄷ", "ㄸ", "ㄹ", "ㅁ", "ㅂ", "ㅃ",
   "ㅅ", "ㅆ", "ㅇ", "ㅈ", "ㅉ", "ㅊ", "ㅋ", "ㅌ", "ㅍ", "ㅎ"]

/-- Vowels (Jungseong), `JUNGSEONG` in `hangul_compose.py`. -/
def JUNGSEONG : List String :=
  ["ㅏ", "ㅐ", "ㅑ", "ㅒ", "ㅓ", "ㅔ", "ㅕ", "ㅖ",
   "ㅗ", "ㅘ", "ㅙ", "ㅚ", "ㅛ",
   "ㅜ", "ㅝ", "ㅞ", "ㅟ", "ㅠ",
   "ㅡ", "ㅢ", "ㅣ"]

/-- Trailing consonants (Jongseong), `JONGSEONG` in `hangul_compose.py`;
index 0 is "no final". -/
def JONGSEONG : List String :=
  ["",
   "ㄱ", "ㄲ", "ㄳ",
   "ㄴ", "ㄵ", "ㄶ",
   "ㄷ",
   "ㄹ", "ㄺ", "ㄻ", "ㄼ", "ㄽ", "ㄾ", "ㄿ", "ㅀ",
   "ㅁ",
   "ㅂ", "ㅄ",
   "ㅅ", "ㅆ",
   "ㅇ",
   "ㅈ", "ㅊ",
   "ㅋ",
   "ㅌ",
   "ㅍ",
   "ㅎ"]

/-- `_CHO_MAP.get(l)`: the enumerate-built dict maps each jamo to its index,
so lookup is the (first) index of the key in the table. -/
def choMap (l : String) : Option Nat := CHOSEONG.findIdx? (fun j => j = l)

/-- `_JUNG_MAP.get(v)`. -/
def jungMap (v : String) : Option Nat := JUNGSEONG.findIdx? (fun j => j = v)

/-- `_JONG_MAP.get(t)`. -/
def jongMap (t : String) : Option Nat := JONGSEONG.findIdx? (fun j => j = t)

/-- Python `chr(cp)`: raises only for codepoints outside `[0, 0x110000)`.
In every reachable call here `cp ≤ 0xD7A3 < 0xD800`, so `Char.ofNat` is
the honest value and the guard mirrors the `try/except` around `chr`. -/
def pyChr (cp : Nat) : String :=
  if cp < 0x110000 then String.mk [Char.ofNat cp] else ""

/-- `compose_lvt(lead, vowel, tail="")` from `hangul_compose.py`. -/
def compose_lvt (lead vowel : String) (tail : String := "") : String :=
  let l := PyStr.strip lead
  let v := PyStr.strip vowel
  let t := PyStr.strip tail
  if l = "" ∨ v = "" then ""
  else
    match choMap l, jungMap v, jongMap t with
    | some li, some vi, some ti =>
        pyChr (0xAC00 + (li * 21 + vi) * 28 + ti)
    | _, _, _ => ""

/-- `compose_cv(lead, vowel)` from `hangul_compose.py`. -/
def compose_cv (lead vowel : String) : String := compose_lvt lead vowel ""

end HangulCompose

namespace HangulUnicode

/-- `_CHOESONG` in `hangul_unicode.py`. -/
def CHOESONG : List String :=
  ["ㄱ", "ㄲ", "ㄴ", "ㄷ", "ㄸ", "ㄹ", "ㅁ", "ㅂ", "ㅃ", "ㅅ", "ㅆ", "ㅇ",
   "ㅈ", "ㅉ", "ㅊ", "ㅋ", "ㅌ", "ㅍ", "ㅎ"]

/-- `_JUNGSUNG` in `hangul_unicode.py`. -/
def JUNGSUNG : List String :=
  ["ㅏ", "ㅐ", "ㅑ", "ㅒ", "ㅓ", "ㅔ", "ㅕ", "ㅖ", "ㅗ", "ㅘ", "ㅙ", "ㅚ", "ㅛ",
   "ㅜ", "ㅝ", "ㅞ", "ㅟ", "ㅠ", "ㅡ", "ㅢ", "ㅣ"]

/-- `compose_cv(lead, vowel)` from `hangul_unicode.py`.  `none` models the
`ValueError` raised on invalid jamo; no whitespace stripping is done. -/
def compose_cv (lead vowel : String) : Option String :=
  match CHOESONG.findIdx? (fun j => j = lead), JUNGSUNG.findIdx? (fun j => j = vowel) with
  | some li, some vi => some (HangulCompose.pyChr (0xAC00 + (li * 21 + vi) * 28))
  | _, _ => none

end HangulUnicode

namespace StudyItemRepository

/-- `_COMPAT_CHO` in `study_item_repository.py`. -/
def COMPAT_CHO : List String :=
  ["ㄱ", "ㄲ", "ㄴ", "ㄷ", "ㄸ", "ㄹ", "ㅁ", "ㅂ", "ㅃ",
   "ㅅ", "ㅆ", "ㅇ", "ㅈ", "ㅉ", "ㅊ", "ㅋ", "ㅌ", "ㅍ", "ㅎ"]

/-- `_COMPAT_JUNG` in `study_item_repository.py`. -/
def COMPAT_JUNG : List String :=
  ["ㅏ", "ㅐ", "ㅑ", "ㅒ", "ㅓ", "ㅔ", "ㅕ", "ㅖ",
   "ㅗ", "ㅘ", "ㅙ", "ㅚ", "ㅛ",
   "ㅜ", "ㅝ", "ㅞ", "ㅟ", "ㅠ",
   "ㅡ", "ㅢ", "ㅣ"]

/-- `_decompose_precomposed_syllable(s)`: `none` models Python `None`.
The `len(s) != 1` test is the match on a singleton character list. -/
def decompose_precomposed_syllable (s : String) : Option (String × String) :=
  match s.data with
  | [c] =>
      let code := c.toNat
      if code < 0xAC00 ∨ 0xD7A3 < code then none
      else
        let syllable_index := code - 0xAC00
        let cho_index := syllable_index / 588
        let jung_index := (syllable_index % 588) / 28
        match COMPAT_CHO.get? cho_index, COMPAT_JUNG.get? jung_index with
        | some c, some j => some (c, j)
        | _, _ => none
  | _ => none

end StudyItemRepository

/-- A successful `findIdx?` points at an element satisfying the predicate. -/
theorem findIdx?_some_get {α} {p : α → Bool} {l : List α} {i : Nat}
    (h : l.findIdx? p = some i) : i < l.length ∧ ∃ a, l.get? i = some a ∧ p a := by
  induction l generalizing i with
  | nil => simp [List.findIdx?_nil] at h
  | cons x xs ih =>
    rw [List.findIdx?_cons] at h
    by_cases hx : p x
    · simp [hx] at h
      subst h
      exact ⟨by simp, x, by simp, hx⟩
    · simp [hx, List.findIdx?_succ] at h
      obtain ⟨j, hj, hji⟩ := h
      obtain ⟨hlt, a, ha, hpa⟩ := ih hj
      subst hji
      exact ⟨by simpa using hlt, a, by simpa using ha, hpa⟩

/-- A successful table lookup in `choMap` returns an in-range index whose
table entry is the looked-up (non-empty) string. -/
theorem choMap_some {l : String} {li : Nat} (h : HangulCompose.choMap l = some li) :
    li < 19 ∧ HangulCompose.CHOSEONG.get? li = some l ∧ l ≠ "" := by
  obtain ⟨hlt, a, ha, hpa⟩ := findIdx?_some_get h
  have hal : a = l := by simpa using hpa
  subst hal
  refine ⟨by simpa [HangulCompose.CHOSEONG] using hlt, ha, ?_⟩
  have hmem : a ∈ HangulCompose.CHOSEONG := List.get?_mem ha
  have : ∀ x ∈ HangulCompose.CHOSEONG, ¬x = "" := by decide
  exact this a hmem

/-- Analogue of `choMap_some` for the vowel table. -/
theorem jungMap_some {v : String} {vi : Nat} (h : HangulCompose.jungMap v = some vi) :
    vi < 21 ∧ HangulCompose.JUNGSEONG.get? vi = some v ∧ v ≠ "" := by
  obtain ⟨hlt, a, ha, hpa⟩ := findIdx?_some_get h
  have hal : a = v := by simpa using hpa
  subst hal
  refine ⟨by simpa [HangulCompose.JUNGSEONG] using hlt, ha, ?_⟩
  have hmem : a ∈ HangulCompose.JUNGSEONG := List.get?_mem ha
  have : ∀ x ∈ HangulCompose.JUNGSEONG, ¬x = "" := by decide
  exact this a hmem

/-- Analogue of `choMap_some` for the tail table (whose first entry is `""`). -/
theorem jongMap_some {t : String} {ti : Nat} (h : HangulCompose.jongMap t = some ti) :
    ti < 28 := by
  obtain ⟨hlt, -⟩ := findIdx?_some_get h
  simpa [HangulCompose.JONGSEONG] using hlt

/-- The choseong table of `hangul_unicode.py` equals the one of `hangul_compose.py`. -/
theorem choTables_eq : HangulUnicode.CHOESONG = HangulCompose.CHOSEONG := rfl

/-- The jungseong table of `hangul_unicode.py` equals the one of `hangul_compose.py`. -/
theorem jungTables_eq : HangulUnicode.JUNGSUNG = HangulCompose.JUNGSEONG := rfl

/-- Claim C5: for every leading consonant in the 19-entry choseong table and
every vowel in the 21-entry jungseong table, decomposing the syllable produced
by `compose_cv` via the repository's `_decompose_precomposed_syllable` returns
exactly the original (lead, vowel) pair. -/
theorem claim_C5_roundtrip :
    ∀ l ∈ HangulCompose.CHOSEONG, ∀ v ∈ HangulCompose.JUNGSEONG,
      StudyItemRepository.decompose_precomposed_syllable (HangulCompose.compose_cv l v) =
        some (l, v) := by decide

/-- Witness for C5 at the concrete pair ("ㄱ", "ㅏ"). -/
theorem claim_C5_roundtrip_witness :
    StudyItemRepository.decompose_precomposed_syllable (HangulCompose.compose_cv "ㄱ" "ㅏ") =
      some ("ㄱ", "ㅏ") :=
  claim_C5_roundtrip "ㄱ" (by decide) "ㅏ" (by decide)

/-- Claim C6: whenever lead, vowel and tail resolve to table indices L, V, T
(after stripping), `compose_lvt` returns the single character with codepoint
`0xAC00 + (L * 21 + V) * 28 + T`; in particular `compose_cv "ㄱ" "ㅏ" = "가"`
and `compose_cv "ㄴ" "ㅣ" = "니"`. -/
theorem claim_C6_codepoint :
    (∀ (lead vowel tail : String) (L V T : Nat),
      HangulCompose.choMap (PyStr.strip lead) = some L →
      HangulCompose.jungMap (PyStr.strip vowel) = some V →
      HangulCompose.jongMap (PyStr.strip tail) = some T →
      HangulCompose.compose_lvt lead vowel tail =
        String.mk [Char.ofNat (0xAC00 + (L * 21 + V) * 28 + T)]) ∧
    HangulCompose.compose_cv "ㄱ" "ㅏ" = "가" ∧
    HangulCompose.compose_cv "ㄴ" "ㅣ" = "니" := by
  refine ⟨?_, by decide, by decide⟩
  intro lead vowel tail L V T hL hV hT
  obtain ⟨hL19, -, hLne⟩ := choMap_some hL
  obtain ⟨hV21, -, hVne⟩ := jungMap_some hV
  have hT28 := jongMap_some hT
  have hcp : 0xAC00 + (L * 21 + V) * 28 + T < 0x110000 := by omega
  simp [HangulCompose.compose_lvt, hL, hV, hT, hLne, hVne, HangulCompose.pyChr, hcp]

/-- Witness for C6 at lead "ㄱ", vowel "ㅏ", tail "", indices (0, 0, 0). -/
theorem claim_C6_codepoint_witness :
    HangulCompose.compose_lvt "ㄱ" "ㅏ" "" = String.mk [Char.ofNat (0xAC00 + (0 * 21 + 0) * 28 + 0)] :=
  claim_C6_codepoint.1 "ㄱ" "ㅏ" "" 0 0 0 (by decide) (by decide) (by decide)

/-- Claim C9: if the stripped lead or vowel is empty or fails table lookup,
`compose_lvt` returns the empty string (and raises nothing, being total);
in particular `compose_cv "" "ㅏ" = ""` and `compose_cv "ㄱ" "" = ""`. -/
theorem claim_C9_invalid_empty :
    (∀ lead vowel tail : String,
      (PyStr.strip lead = "" ∨ PyStr.strip vowel = "" ∨
        HangulCompose.choMap (PyStr.strip lead) = none ∨
        HangulCompose.jungMap (PyStr.strip vowel) = none) →
      HangulCompose.compose_lvt lead vowel tail = "") ∧
    HangulCompose.compose_cv "" "ㅏ" = "" ∧
    HangulCompose.compose_cv "ㄱ" "" = "" := by
  refine ⟨?_, by decide, by decide⟩
  intro lead vowel tail h
  by_cases he : PyStr.strip lead = "" ∨ PyStr.strip vowel = ""
  · simp [HangulCompose.compose_lvt, he]
  · rcases h with h | h | h | h
    · exact absurd (Or.inl h) he
    · exact absurd (Or.inr h) he
    · cases hv : HangulCompose.jungMap (PyStr.strip vowel) <;>
        cases ht : HangulCompose.jongMap (PyStr.strip tail) <;>
          simp [HangulCompose.compose_lvt, he, h, hv, ht]
    · cases hl : HangulCompose.choMap (PyStr.strip lead) <;>
        cases ht : HangulCompose.jongMap (PyStr.strip tail) <;>
          simp [HangulCompose.compose_lvt, he, h, hl, ht]

/-- Witness for C9 with an empty lead. -/
theorem claim_C9_invalid_empty_witness :
    HangulCompose.compose_lvt "" "ㅏ" "" = "" :=
  claim_C9_invalid_empty.1 "" "ㅏ" "" (Or.inl (by decide))

/-- Claim C10 counterexample: the two composers do not differ only on invalid
input with the first returning "": on lead " ㄱ" (whitespace-padded valid jamo)
`hangul_compose.compose_cv` returns "가" (non-empty) while
`hangul_unicode.compose_cv` raises `ValueError` (modelled `none`). -/
theorem claim_C10_counterexample :
    HangulUnicode.compose_cv " ㄱ" "ㅏ" = none ∧
    HangulCompose.compose_cv " ㄱ" "ㅏ" = "가" ∧ ("가" : String) ≠ "" := by decide

/-- Claim C10 (amended): the two composers agree on the full 19x21 cross
product of the tables; moreover on already-stripped inputs the
`hangul_unicode` composer either returns exactly the `hangul_compose` result
or raises while `hangul_compose` returns the empty string.  (On non-stripped
input the former may compose while the latter raises.) -/
theorem claim_C10_amended :
    (∀ l ∈ HangulCompose.CHOSEONG, ∀ v ∈ HangulCompose.JUNGSEONG,
      HangulUnicode.compose_cv l v = some (HangulCompose.compose_cv l v)) ∧
    (∀ l v : String, PyStr.strip l = l → PyStr.strip v = v →
      HangulUnicode.compose_cv l v = some (HangulCompose.compose_cv l v) ∨
      (HangulUnicode.compose_cv l v = none ∧ HangulCompose.compose_cv l v = "")) := by
  constructor
  · decide
  · intro l v hl hv
    cases hcl : HangulCompose.choMap l with
    | none =>
      refine Or.inr ⟨?_, ?_⟩
      · simpa [HangulUnicode.compose_cv, choTables_eq, jungTables_eq,
          HangulCompose.choMap] using
          congrArg (fun o => match o, HangulCompose.jungMap v with
            | some li, some vi => some (HangulCompose.pyChr (0xAC00 + (li * 21 + vi) * 28))
            | _, _ => (none : Option String)) hcl
      · by_cases he : l = "" ∨ v = ""
        · simp [HangulCompose.compose_cv, HangulCompose.compose_lvt, hl, hv, he]
        · cases hjv : HangulCompose.jungMap v <;>
            cases ht : HangulCompose.jongMap (PyStr.strip "") <;>
              simp [HangulCompose.compose_cv, HangulCompose.compose_lvt, hl, hv, he,
                hcl, hjv, ht]
    | some li =>
      cases hjv : HangulCompose.jungMap v with
      | none =>
        refine Or.inr ⟨?_, ?_⟩
        · simp only [HangulUnicode.compose_cv, choTables_eq, jungTables_eq]
          rw [show HangulCompose.CHOSEONG.findIdx? (fun j => j = l) = some li from hcl,
            show HangulCompose.JUNGSEONG.findIdx? (fun j => j = v) = none from hjv]
        · by_cases he : l = "" ∨ v = ""
          · simp [HangulCompose.compose_cv, HangulCompose.compose_lvt, hl, hv, he]
          · cases ht : HangulCompose.jongMap (PyStr.strip "") <;>
              simp [HangulCompose.compose_cv, HangulCompose.compose_lvt, hl, hv, he,
                hcl, hjv, ht]
      | some vi =>
        refine Or.inl ?_
        obtain ⟨-, -, hlne⟩ := choMap_some hcl
        obtain ⟨-, -, hvne⟩ := jungMap_some hjv
        have ht0 : HangulCompose.jongMap (PyStr.strip "") = some 0 := by decide
        simp only [HangulUnicode.compose_cv, choTables_eq, jungTables_eq]
        rw [show HangulCompose.CHOSEONG.findIdx? (fun j => j = l) = some li from hcl,
          show HangulCompose.JUNGSEONG.findIdx? (fun j => j = v) = some vi from hjv]
        simp [HangulCompose.compose_cv, HangulCompose.compose_lvt, hl, hv, hlne, hvne,
          hcl, hjv, ht0]

/-- Witness for C10 (amended) at ("ㄱ", "ㅏ") and at the stripped pair ("x", "ㅏ"). -/
theorem claim_C10_amended_witness :
    HangulUnicode.compose_cv "ㄱ" "ㅏ" = some (HangulCompose.compose_cv "ㄱ" "ㅏ") ∧
    (HangulUnicode.compose_cv "x" "ㅏ" = some (HangulCompose.compose_cv "x" "ㅏ") ∨
      (HangulUnicode.compose_cv "x" "ㅏ" = none ∧ HangulCompose.compose_cv "x" "ㅏ" = "")) :=
  ⟨claim_C10_amended.1 "ㄱ" (by decide) "ㅏ" (by decide),
   claim_C10_amended.2 "x" "ㅏ" (by decide) (by decide)⟩

namespace PyStr

/-- Python `str.lower()` restricted to ASCII letters (the only characters the
mode labels contain). -/
def lowerChar (c : Char) : Char :=
  if 65 ≤ c.toNat ∧ c.toNat ≤ 90 then Char.ofNat (c.toNat + 32) else c

/-- Python `s.lower()`. -/
def lower (s : String) : String := String.mk (s.data.map lowerChar)

/-- Python `s[i]` on strings (a one-character string); out of range is never
reached where this is used. -/
def charAt (s : String) (i : Nat) : String :=
  match s.data.get? i with
  | some c => String.mk [c]
  | none => ""

end PyStr

/-- A parsed YAML document as `yaml.safe_load` returns it: `null` also stands
for a missing or unreadable file (`_read_yaml` returns `None` for those). -/
inductive Yaml where
  | null
  | str (s : String)
  | int (n : Int)
  | bool (b : Bool)
  | list (xs : List Yaml)
  | dict (kvs : List (String × Yaml))

namespace StudyItemRepository

/-- Python `dict.get(k)` on the (unique-keyed) mapping. -/
def dictGet (kvs : List (String × Yaml)) (k : String) : Option Yaml :=
  (kvs.find? (fun p => p.1 = k)).map (fun p => p.2)

/-- `_as_nonempty_str(value)`: a stripped non-empty string, else `None`. -/
def as_nonempty_str (value : Yaml) : Option String :=
  match value with
  | .str s => let t := PyStr.strip s; if t = "" then none else some t
  | _ => none

/-- `_pick_str(mapping, keys)`: first key whose value is a non-empty string. -/
def pick_str (mapping : Yaml) (keys : List String) : Option String :=
  match mapping with
  | .dict kvs => keys.findSome? (fun k => (dictGet kvs k).bind as_nonempty_str)
  | _ => none

/-- `_iter_items(container, preferred_keys)`. -/
def iter_items (container : Yaml) (preferred_keys : List String) : List Yaml :=
  match container with
  | .list xs => xs
  | .dict kvs =>
      match preferred_keys.findSome?
          (fun k => match dictGet kvs k with | some (.list v) => some v | _ => none) with
      | some v => v
      | none =>
          match (["items", "data", "list"] : List String).findSome?
              (fun k => match dictGet kvs k with | some (.list v) => some v | _ => none) with
          | some v => v
          | none => []
  | _ => []

/-- One iteration of the `_load_syllable_pairs` loop: the at-most-one pair a
single item contributes. -/
def parse_syllable_item (item : Yaml) : Option (String × String) :=
  match as_nonempty_str item with
  | some s =>
      if 2 ≤ s.length then some (PyStr.charAt s 0, PyStr.charAt s 1)
      else decompose_precomposed_syllable s
  | none =>
      match item with
      | .dict _ =>
          match pick_str item ["c", "consonant", "onset", "initial", "cho"],
              pick_str item ["v", "vowel", "nucleus", "medial", "jung"] with
          | some c, some v => some (c, v)
          | _, _ =>
              match pick_str item ["cv", "text", "value", "syllable"] with
              | some cv =>
                  if 2 ≤ cv.length then some (PyStr.charAt cv 0, PyStr.charAt cv 1)
                  else decompose_precomposed_syllable cv
              | none => none
      | _ => none

/-- One iteration of the `_load_vowel_pairs` loop. -/
def parse_vowel_item (item : Yaml) : Option (String × String) :=
  match as_nonempty_str item with
  | some s => some ("∅", s)
  | none =>
      match item with
      | .dict _ =>
          (pick_str item ["v", "vowel", "glyph", "text", "value"]).map (fun v => ("∅", v))
      | _ => none

/-- One iteration of the `_load_consonant_pairs` loop. -/
def parse_consonant_item (item : Yaml) : Option (String × String) :=
  match as_nonempty_str item with
  | some s => some (s, "∅")
  | none =>
      match item with
      | .dict _ =>
          (pick_str item ["c", "consonant", "glyph", "text", "value"]).map (fun c => (c, "∅"))
      | _ => none

/-- The file system seen by `_read_yaml`: file name to parsed YAML document,
`Yaml.null` standing for missing/unreadable/invalid files. -/
def DataDir := String → Yaml

/-- `_load_syllable_pairs()`. -/
def load_syllable_pairs (dir : DataDir) : List (String × String) :=
  let items := iter_items (dir "syllables.yaml") ["syllables", "syllable", "cv", "pairs"]
  let pairs := items.filterMap parse_syllable_item
  if pairs = [] then [("ㄱ", "ㅏ")] else pairs

/-- `_load_vowel_pairs()`. -/
def load_vowel_pairs (dir : DataDir) : List (String × String) :=
  let out := (iter_items (dir "vowels.yaml") ["vowels", "vowel"]).filterMap parse_vowel_item
  if out = [] then [("∅", "ㅏ")] else out

/-- `_load_consonant_pairs()`. -/
def load_consonant_pairs (dir : DataDir) : List (String × String) :=
  let out := (iter_items (dir "consonants.yaml") ["consonants", "consonant"]).filterMap
    parse_consonant_item
  if out = [] then [("ㄱ", "∅")] else out

/-- `pairs_for_mode(mode_text)`. -/
def pairs_for_mode (dir : DataDir) (mode_text : String) : List (String × String) :=
  let m := PyStr.lower (PyStr.strip mode_text)
  if m = "vowels" then load_vowel_pairs dir
  else if m = "consonants" then load_consonant_pairs dir
  else load_syllable_pairs dir

/-- The YAML file `pairs_for_mode` reads for a given mode label. -/
def fileForMode (mode_text : String) : String :=
  let m := PyStr.lower (PyStr.strip mode_text)
  if m = "vowels" then "vowels.yaml"
  else if m = "consonants" then "consonants.yaml"
  else "syllables.yaml"

/-- The preferred wrapper keys `pairs_for_mode` uses for a given mode label. -/
def keysForMode (mode_text : String) : List String :=
  let m := PyStr.lower (PyStr.strip mode_text)
  if m = "vowels" then ["vowels", "vowel"]
  else if m = "consonants" then ["consonants", "consonant"]
  else ["syllables", "syllable", "cv", "pairs"]

/-- The per-item parser `pairs_for_mode` applies for a given mode label. -/
def parseForMode (mode_text : String) : Yaml → Option (String × String) :=
  let m := PyStr.lower (PyStr.strip mode_text)
  if m = "vowels" then parse_vowel_item
  else if m = "consonants" then parse_consonant_item
  else parse_syllable_item

/-- The hard-coded fallback pair for a given mode label. -/
def defaultPairForMode (mode_text : String) : String × String :=
  let m := PyStr.lower (PyStr.strip mode_text)
  if m = "vowels" then ("∅", "ㅏ")
  else if m = "consonants" then ("ㄱ", "∅")
  else ("ㄱ", "ㅏ")

/-- `pairs_for_mode` re-expressed through the per-mode pieces. -/
theorem pairs_for_mode_eq (dir : DataDir) (mode_text : String) :
    pairs_for_mode dir mode_text =
      (let ps := (iter_items (dir (fileForMode mode_text)) (keysForMode mode_text)).filterMap
        (parseForMode mode_text)
       if ps = [] then [defaultPairForMode mode_text] else ps) := by
  by_cases h1 : PyStr.lower (PyStr.strip mode_text) = "vowels"
  · simp [pairs_for_mode, fileForMode, keysForMode, parseForMode, defaultPairForMode,
      load_vowel_pairs, h1]
  · by_cases h2 : PyStr.lower (PyStr.strip mode_text) = "consonants"
    · simp [pairs_for_mode, fileForMode, keysForMode, parseForMode, defaultPairForMode,
        load_consonant_pairs, h1, h2]
    · simp [pairs_for_mode, fileForMode, keysForMode, parseForMode, defaultPairForMode,
        load_syllable_pairs, h1, h2]

end StudyItemRepository

/-- Python list indexing `l[i]` (negative indices count from the end);
`none` models an `IndexError`. -/
def pyListGet {α : Type} (l : List α) (i : Int) : Option α :=
  if 0 ≤ i then l.get? i.toNat
  else if 0 ≤ i + l.length then l.get? (i + l.length).toNat else none

/-- The `SyllableNavigation` dataclass state. -/
structure SyllableNavigation where
  pairs : List (String × String) := []
  index : Int := 0
  current_consonant : String := "ㄱ"
  current_vowel : String := "ㅏ"

namespace SyllableNavigation

open StudyItemRepository

/-- `reload_for_mode(mode_text, reset_index)`.  The repository call is wrapped
in `try/except` in the source (modelled total here), but the subsequent
`self.pairs[self.index]` access is unguarded: `Except.error` models the
`IndexError` it can raise. -/
def reload_for_mode (dir : DataDir) (mode_text : String) (reset_index : Bool)
    (s : SyllableNavigation) : Except String SyllableNavigation :=
  let pairs := pairs_for_mode dir mode_text
  let index := if reset_index then 0 else s.index
  if pairs ≠ [] then
    match pyListGet pairs index with
    | some (c, v) =>
        .ok { pairs := pairs, index := index, current_consonant := c, current_vowel := v }
    | none => .error "IndexError"
  else
    .ok { pairs := pairs, index := index, current_consonant := "ㄱ", current_vowel := "ㅏ" }

/-- `ensure_loaded(mode_text)`. -/
def ensure_loaded (dir : DataDir) (mode_text : String) (s : SyllableNavigation) :
    Except String SyllableNavigation :=
  if s.pairs = [] then reload_for_mode dir mode_text true s else .ok s

/-- `advance(delta, mode_text)`: returns the updated state and the returned
`(consonant, vowel)` pair. -/
def advance (dir : DataDir) (mode_text : String) (delta : Int) (s : SyllableNavigation) :
    Except String (SyllableNavigation × (String × String)) :=
  match ensure_loaded dir mode_text s with
  | .error e => .error e
  | .ok s1 =>
      if s1.pairs = [] then .ok (s1, (s1.current_consonant, s1.current_vowel))
      else
        let idx := (s1.index + delta) % (s1.pairs.length : Int)
        match pyListGet s1.pairs idx with
        | some (c, v) =>
            .ok ({ s1 with index := idx, current_consonant := c, current_vowel := v }, (c, v))
        | none => .error "IndexError"

/-- `current_pair()`. -/
def current_pair (s : SyllableNavigation) : String × String :=
  (s.current_consonant, s.current_vowel)

/-- `advance` iterated `k` times with the same `delta`. -/
def advanceIter (dir : DataDir) (mode_text : String) (delta : Int) :
    Nat → SyllableNavigation → Except String SyllableNavigation
  | 0, s => .ok s
  | k + 1, s =>
      match advance dir mode_text delta s with
      | .ok (s1, _) => advanceIter dir mode_text delta k s1
      | .error e => .error e

end SyllableNavigation

/-- When the active pair list is non-empty, `advance` cannot raise: it wraps
the index modulo the list length and returns the pair found there. -/
theorem advance_ok (dir : StudyItemRepository.DataDir) (mode : String) (delta : Int)
    (s : SyllableNavigation) (h : s.pairs ≠ []) :
    ∃ c v, SyllableNavigation.advance dir mode delta s =
      .ok ({ s with
              index := (s.index + delta) % (s.pairs.length : Int)
              current_consonant := c
              current_vowel := v }, (c, v)) := by
  have hn : (0 : Int) < (s.pairs.length : Int) := by
    exact_mod_cast List.length_pos.2 h
  have h0 : 0 ≤ (s.index + delta) % (s.pairs.length : Int) :=
    Int.emod_nonneg _ (by omega)
  have hlt : (s.index + delta) % (s.pairs.length : Int) < (s.pairs.length : Int) :=
    Int.emod_lt_of_pos _ hn
  have htn : ((s.index + delta) % (s.pairs.length : Int)).toNat < s.pairs.length := by
    omega
  cases hg : s.pairs.get? ((s.index + delta) % (s.pairs.length : Int)).toNat with
  | none =>
      exact absurd (List.get?_eq_none.1 hg) (by omega)
  | some p =>
      refine ⟨p.1, p.2, ?_⟩
      unfold SyllableNavigation.advance SyllableNavigation.ensure_loaded
      simp only [if_neg (by simpa using h)]
      rw [List.get?_eq_getElem?] at hg
      simp [h, pyListGet, if_pos h0, hg]

/-- Iterating `advance` `k` times from an in-range index lands on
`(index + k * delta) mod length` and never raises. -/
theorem advanceIter_ok (dir : StudyItemRepository.DataDir) (mode : String) (delta : Int)
    (k : Nat) (s : SyllableNavigation) (h : s.pairs ≠ [])
    (h0 : 0 ≤ s.index) (hlt : s.index < (s.pairs.length : Int)) :
    ∃ s1, SyllableNavigation.advanceIter dir mode delta k s = .ok s1 ∧
      s1.pairs = s.pairs ∧
      s1.index = (s.index + k * delta) % (s.pairs.length : Int) := by
  induction k generalizing s with
  | zero =>
      exact ⟨s, rfl, rfl, by
        simp [Int.emod_eq_of_lt h0 hlt]⟩
  | succ k ih =>
      obtain ⟨c, v, hadv⟩ := advance_ok dir mode delta s h
      have hn : (0 : Int) < (s.pairs.length : Int) := by
        exact_mod_cast List.length_pos.2 h
      set s2 : SyllableNavigation :=
        { s with
            index := (s.index + delta) % (s.pairs.length : Int)
            current_consonant := c
            current_vowel := v } with hs2
      have h2 : s2.pairs ≠ [] := h
      have h02 : 0 ≤ s2.index := Int.emod_nonneg _ (by omega)
      have hlt2 : s2.index < (s2.pairs.length : Int) := Int.emod_lt_of_pos _ hn
      obtain ⟨s1, h1, hp, hi⟩ := ih s2 h2 h02 hlt2
      refine ⟨s1, ?_, by simpa using hp, ?_⟩
      · simp [SyllableNavigation.advanceIter, hadv, h1]
      · rw [hi]
        show (((s.index + delta) % (s.pairs.length : Int) + (k : Int) * delta))
            % (s.pairs.length : Int) = _
        rw [Int.add_emod ((s.index + delta) % (s.pairs.length : Int)) ((k : Int) * delta),
          Int.emod_emod_of_dvd _ dvd_rfl, ← Int.add_emod]
        congr 1
        push_cast
        ring

/-- Claim C8: on a non-empty `StudySet` of length n with a starting index i in
range, n advances by +1 return the index to i, n advances by -1 return it to
i, and a single `advance(delta)` sets the index to `(i + delta) mod n`, which
stays in range; no call raises. -/
theorem claim_C8_wraparound :
    ∀ (dir : StudyItemRepository.DataDir) (mode : String) (s : SyllableNavigation)
      (n : Nat) (i : Int),
      s.pairs.length = n → s.index = i → 0 ≤ i → i < (n : Int) →
      (∃ s1, SyllableNavigation.advanceIter dir mode 1 n s = .ok s1 ∧
        s1.index = i ∧ s1.pairs = s.pairs) ∧
      (∃ s1, SyllableNavigation.advanceIter dir mode (-1) n s = .ok s1 ∧
        s1.index = i ∧ s1.pairs = s.pairs) ∧
      (∀ delta : Int, ∃ s1 p, SyllableNavigation.advance dir mode delta s = .ok (s1, p) ∧
        s1.index = (i + delta) % (n : Int) ∧ 0 ≤ s1.index ∧ s1.index < (n : Int) ∧
        s1.pairs = s.pairs) := by
  intro dir mode s n i hlen hidx h0 hlt
  have hne : s.pairs ≠ [] := by
    intro hnil
    rw [hnil] at hlen
    simp at hlen
    omega
  have hlen' : (s.pairs.length : Int) = (n : Int) := by exact_mod_cast hlen
  refine ⟨?_, ?_, ?_⟩
  · obtain ⟨s1, h1, hp, hi⟩ := advanceIter_ok dir mode 1 n s hne (hidx ▸ h0) (by omega)
    refine ⟨s1, h1, ?_, hp⟩
    rw [hi, hidx, hlen', Int.add_mul_emod_self_left, Int.emod_eq_of_lt h0 hlt]
  · obtain ⟨s1, h1, hp, hi⟩ := advanceIter_ok dir mode (-1) n s hne (hidx ▸ h0) (by omega)
    refine ⟨s1, h1, ?_, hp⟩
    rw [hi, hidx, hlen', Int.add_mul_emod_self_left, Int.emod_eq_of_lt h0 hlt]
  · intro delta
    obtain ⟨c, v, hadv⟩ := advance_ok dir mode delta s hne
    have hn : (0 : Int) < (s.pairs.length : Int) := by
      exact_mod_cast List.length_pos.2 hne
    refine ⟨_, (c, v), hadv, ?_, ?_, ?_, rfl⟩
    · simp [hidx, hlen']
    · exact Int.emod_nonneg _ (by omega)
    · simpa [hlen'] using Int.emod_lt_of_pos (s.index + delta) hn

/-- Witness for C8 on a concrete two-pair set starting at index 1. -/
theorem claim_C8_wraparound_witness :
    (∃ s1, SyllableNavigation.advanceIter (fun _ => Yaml.null) "Syllables" 1 2
        { pairs := [("ㄱ", "ㅏ"), ("ㄴ", "ㅏ")], index := 1,
          current_consonant := "ㄴ", current_vowel := "ㅏ" } = .ok s1 ∧
      s1.index = 1 ∧ s1.pairs = [("ㄱ", "ㅏ"), ("ㄴ", "ㅏ")]) ∧
    (∃ s1, SyllableNavigation.advanceIter (fun _ => Yaml.null) "Syllables" (-1) 2
        { pairs := [("ㄱ", "ㅏ"), ("ㄴ", "ㅏ")], index := 1,
          current_consonant := "ㄴ", current_vowel := "ㅏ" } = .ok s1 ∧
      s1.index = 1 ∧ s1.pairs = [("ㄱ", "ㅏ"), ("ㄴ", "ㅏ")]) ∧
    (∀ delta : Int, ∃ s1 p, SyllableNavigation.advance (fun _ => Yaml.null) "Syllables" delta
        { pairs := [("ㄱ", "ㅏ"), ("ㄴ", "ㅏ")], index := 1,
          current_consonant := "ㄴ", current_vowel := "ㅏ" } = .ok (s1, p) ∧
      s1.index = (1 + delta) % (2 : Int) ∧ 0 ≤ s1.index ∧ s1.index < (2 : Int) ∧
      s1.pairs = [("ㄱ", "ㅏ"), ("ㄴ", "ㅏ")]) := by
  have h := claim_C8_wraparound (fun _ => Yaml.null) "Syllables"
    { pairs := [("ㄱ", "ㅏ"), ("ㄴ", "ㅏ")], index := 1,
      current_consonant := "ㄴ", current_vowel := "ㅏ" } 2 1 rfl rfl (by decide) (by decide)
  simpa using h

/-- Claim C4 (evaluation of the failing input): `reload_for_mode` with
`reset_index := false` from index 1, when the new mode's source is unusable
(so the loaded set is the one-pair fallback), raises `IndexError` instead of
clamping the preserved index — the `self.pairs[self.index]` access is
unguarded. -/
theorem claim_C4_reload_raises :
    SyllableNavigation.reload_for_mode (fun _ => Yaml.null) "Syllables" false
      { pairs := [("ㄱ", "ㅏ"), ("ㄴ", "ㅏ")], index := 1,
        current_consonant := "ㄴ", current_vowel := "ㅏ" } = .error "IndexError" := by
  rfl

/-- Claim C7: for every data-source response whose extracted items all fail to
parse (covering a missing file, an empty list, and every-entry-malformed
responses), `reload_for_mode` from the dataclass-default index 0 succeeds for
each of the three modes, loads exactly the one hard-coded default pair, and
`current_pair()` returns that (fully non-empty) pair. -/
theorem claim_C7_default_pair :
    ∀ (dir : StudyItemRepository.DataDir) (mode_text : String) (reset : Bool)
      (s : SyllableNavigation),
      mode_text ∈ (["Syllables", "Vowels", "Consonants"] : List String) →
      s.index = 0 →
      (∀ it ∈ StudyItemRepository.iter_items (dir (StudyItemRepository.fileForMode mode_text))
          (StudyItemRepository.keysForMode mode_text),
        StudyItemRepository.parseForMode mode_text it = none) →
      ∃ s1, SyllableNavigation.reload_for_mode dir mode_text reset s = .ok s1 ∧
        s1.pairs = [StudyItemRepository.defaultPairForMode mode_text] ∧
        SyllableNavigation.current_pair s1 = StudyItemRepository.defaultPairForMode mode_text ∧
        (SyllableNavigation.current_pair s1).1 ≠ "" ∧
        (SyllableNavigation.current_pair s1).2 ≠ "" := by
  intro dir mode_text reset s hmode hidx hmal
  have hflt : (StudyItemRepository.iter_items
      (dir (StudyItemRepository.fileForMode mode_text))
      (StudyItemRepository.keysForMode mode_text)).filterMap
        (StudyItemRepository.parseForMode mode_text) = [] :=
    List.filterMap_eq_nil_iff.2 hmal
  have hpairs : StudyItemRepository.pairs_for_mode dir mode_text =
      [StudyItemRepository.defaultPairForMode mode_text] := by
    rw [StudyItemRepository.pairs_for_mode_eq]
    simp [hflt]
  have hd : (StudyItemRepository.defaultPairForMode mode_text).1 ≠ "" ∧
      (StudyItemRepository.defaultPairForMode mode_text).2 ≠ "" := by
    simp only [List.mem_cons, List.mem_singleton] at hmode
    rcases hmode with h | h | h | h <;> first | (subst h; decide) | simp at h
  refine ⟨{ pairs := [StudyItemRepository.defaultPairForMode mode_text]
            index := if reset then 0 else s.index
            current_consonant := (StudyItemRepository.defaultPairForMode mode_text).1
            current_vowel := (StudyItemRepository.defaultPairForMode mode_text).2 },
    ?_, rfl, rfl, hd.1, hd.2⟩
  unfold SyllableNavigation.reload_for_mode
  rw [hpairs]
  cases reset <;> simp [pyListGet, hidx]

/-- Witness for C7: a missing vowels file from the default state. -/
theorem claim_C7_default_pair_witness :
    ∃ s1, SyllableNavigation.reload_for_mode (fun _ => Yaml.null) "Vowels" false {} = .ok s1 ∧
      s1.pairs = [StudyItemRepository.defaultPairForMode "Vowels"] ∧
      SyllableNavigation.current_pair s1 = StudyItemRepository.defaultPairForMode "Vowels" ∧
      (SyllableNavigation.current_pair s1).1 ≠ "" ∧
      (SyllableNavigation.current_pair s1).2 ≠ "" :=
  claim_C7_default_pair (fun _ => Yaml.null) "Vowels" false {} (by decide) rfl
    (by intro it hit; simp [StudyItemRepository.iter_items] at hit)

namespace Playback

/-- `DelaysConfig` from `main.py` / `app.domain.enums` (milliseconds). -/
structure DelaysConfig where
  pre_first_ms : Int
  between_reps_ms : Int
  before_hints_ms : Int
  before_extras_ms : Int
  auto_advance_ms : Int

/-- Possible behaviours of one invocation of the injected `tts_play` callback:
it either synchronously invokes its continuation exactly once, or raises. -/
inductive TtsBeh where
  | callsCont
  | raises
deriving DecidableEq

/-- Externally observable callback invocations of the controller.
`playAudio g` records that `self._tts_play(g, ...)` was invoked (the call may
then raise); the others record the corresponding injected callback firing. -/
inductive Event where
  | playAudio (glyph : String)
  | revealHints
  | revealExtras
  | autoAdvance
  | finished
deriving DecidableEq

/-- The closures `start()` can leave scheduled on the event-loop timer queue,
defunctionalised; each carries the generation-token value it captured.
`playN` also stands for the `lambda: _play_n(...)` wrappers (pre-first delay
and between-reps), which perform no check of their own before calling
`_play_n`, whose first action is the `_valid()` check. `autoFinish` is the
`lambda: (self._on_autoadvance(), _finish())` scheduled in `_after_extras`. -/
inductive Step where
  | playN (token : Nat) (nLeft : Int)
  | afterOne (token : Nat) (nLeft : Int)
  | doHints (token : Nat)
  | doExtras (token : Nat)
  | autoFinish (token : Nat)
deriving DecidableEq

/-- `PlaybackSequenceController` state plus the event-loop artefacts the
claims speak about: the (at most one per live run) scheduled closure, the
trace of callback invocations (most recent first), and how many times
`tts_play` has been called (indexing the behaviour oracle). -/
structure SeqState where
  gen : Nat
  running : Bool
  cbSet : Bool
  pending : Option Step
  events : List Event
  ttsCalls : Nat
deriving DecidableEq

/-- The per-run arguments of `start()` captured by its closures. -/
structure RunCfg where
  glyph : String
  auto_mode : Bool

/-- The `_valid()` closure: `self._running and token == self._gen`. -/
def valid (token : Nat) (st : SeqState) : Bool :=
  st.running && token == st.gen

/-- Record an injected callback firing. -/
def emit (e : Event) (st : SeqState) : SeqState :=
  { st with events := e :: st.events }

/-- The `_finish()` closure. -/
def finishStep (token : Nat) (st : SeqState) : SeqState :=
  if valid token st then
    let st := { st with running := false }
    if st.cbSet then emit .finished st else st
  else st

/-- The `_after_repeats()` closure: schedules `_do_hints`. -/
def afterRepeatsStep (token : Nat) (st : SeqState) : SeqState :=
  if valid token st then { st with pending := some (.doHints token) } else st

/-- The `_after_one()` closure of a `_play_n(n_left)` call. -/
def afterOneStep (token : Nat) (nLeft : Int) (st : SeqState) : SeqState :=
  if valid token st then
    if 1 < nLeft then { st with pending := some (.playN token (nLeft - 1)) }
    else afterRepeatsStep token st
  else st

/-- The `_play_n(n_left)` closure: invokes `tts_play`; if that raises, the
continuation is rescheduled at zero delay (`QTimer.singleShot(0, _after_one)`),
otherwise the oracle-behaviour callback runs the continuation synchronously. -/
def playNStep (cfg : RunCfg) (oracle : Nat → TtsBeh) (token : Nat) (nLeft : Int)
    (st : SeqState) : SeqState :=
  if valid token st then
    let st1 := emit (.playAudio cfg.glyph) { st with ttsCalls := st.ttsCalls + 1 }
    match oracle st.ttsCalls with
    | .callsCont => afterOneStep token nLeft st1
    | .raises => { st1 with pending := some (.afterOne token nLeft) }
  else st

/-- The `_after_hints()` closure: schedules `_do_extras`. -/
def afterHintsStep (token : Nat) (st : SeqState) : SeqState :=
  if valid token st then { st with pending := some (.doExtras token) } else st

/-- The `_do_hints()` closure: reveals hints, then (`finally`) `_after_hints`. -/
def doHintsStep (token : Nat) (st : SeqState) : SeqState :=
  if valid token st then afterHintsStep token (emit .revealHints st) else st

/-- The `_after_extras()` closure: in auto mode schedules the unguarded
auto-advance lambda, otherwise calls `_finish()` synchronously. -/
def afterExtrasStep (cfg : RunCfg) (token : Nat) (st : SeqState) : SeqState :=
  if valid token st then
    if cfg.auto_mode then { st with pending := some (.autoFinish token) }
    else finishStep token st
  else st

/-- The `_do_extras()` closure: reveals extras, then (`finally`)
`_after_extras`. -/
def doExtrasStep (cfg : RunCfg) (token : Nat) (st : SeqState) : SeqState :=
  if valid token st then afterExtrasStep cfg token (emit .revealExtras st) else st

/-- The `lambda: (self._on_autoadvance(), _finish())` closure: note it invokes
`self._on_autoadvance()` with no `_valid()` re-check; only `_finish()`
re-checks. -/
def autoFinishStep (token : Nat) (st : SeqState) : SeqState :=
  finishStep token (emit .autoAdvance st)

/-- Fire one scheduled closure. -/
def fire (cfg : RunCfg) (oracle : Nat → TtsBeh) (st : SeqState) (stp : Step) : SeqState :=
  match stp with
  | .playN t n => playNStep cfg oracle t n st
  | .afterOne t n => afterOneStep t n st
  | .doHints t => doHintsStep t st
  | .doExtras t => doExtrasStep cfg t st
  | .autoFinish t => autoFinishStep t st

/-- `cancel()`. -/
def cancel (st : SeqState) : SeqState :=
  let st := { st with gen := st.gen + 1 }
  if st.running then
    let st := { st with running := false }
    if st.cbSet then emit .finished st else st
  else { st with running := false }

/-- `is_running()`. -/
def is_running (st : SeqState) : Bool := st.running

/-- `set_on_finished(cb)` (tracking only whether a callback is registered). -/
def set_on_finished (b : Bool) (st : SeqState) : SeqState := { st with cbSet := b }

/-- `start(glyph, repeat_count, delays, auto_mode)`: cancels any current run,
marks the new run live, and either schedules the first `_play_n` (positive
pre-first delay) or runs it synchronously. -/
def start (oracle : Nat → TtsBeh) (glyph : String) (repeat_count : Int)
    (delays : DelaysConfig) (auto_mode : Bool) (st : SeqState) : SeqState :=
  let st := cancel st
  let token := st.gen
  let st := { st with running := true }
  if 0 < delays.pre_first_ms then
    { st with pending := some (.playN token (max 1 repeat_count)) }
  else
    playNStep ⟨glyph, auto_mode⟩ oracle token (max 1 repeat_count) st

/-- The state of the controller right after `__init__` plus
`set_on_finished(cb)` with a real callback. -/
def initState : SeqState :=
  { gen := 0, running := false, cbSet := true, pending := none, events := [], ttsCalls := 0 }

/-- Run the event loop: repeatedly fire the scheduled closure until none is
scheduled (or fuel runs out). -/
def runSteps (cfg : RunCfg) (oracle : Nat → TtsBeh) : Nat → SeqState → SeqState
  | 0, st => st
  | fuel + 1, st =>
      match st.pending with
      | none => st
      | some stp => runSteps cfg oracle fuel (fire cfg oracle { st with pending := none } stp)

/-- How many times the registered finished-callback has been invoked. -/
def countFinished (st : SeqState) : Nat := st.events.count .finished

/-- Completion behaviour of the event loop from state `st` with `fuel` steps:
it drains every scheduled closure, stops running, and invokes the registered
finished-callback exactly once more than before. -/
def Completes (cfg : RunCfg) (oracle : Nat → TtsBeh) (fuel : Nat) (st : SeqState) : Prop :=
  (runSteps cfg oracle fuel st).pending = none ∧
  (runSteps cfg oracle fuel st).running = false ∧
  countFinished (runSteps cfg oracle fuel st) = countFinished st + 1

/-- An event loop with no scheduled closure idles. -/
theorem runSteps_none (cfg : RunCfg) (oracle : Nat → TtsBeh) (fuel : Nat) (st : SeqState)
    (h : st.pending = none) : runSteps cfg oracle fuel st = st := by
  cases fuel <;> simp [runSteps, h]

/-- One iteration of the event loop on a state with a scheduled closure. -/
theorem runSteps_some (cfg : RunCfg) (oracle : Nat → TtsBeh) (fuel : Nat) (st : SeqState)
    (stp : Step) (h : st.pending = some stp) :
    runSteps cfg oracle (fuel + 1) st =
      runSteps cfg oracle fuel (fire cfg oracle { st with pending := none } stp) := by
  simp only [runSteps, h]

/-- From a live run whose scheduled closure is `_do_hints`, the event loop
reveals hints and extras, finishes, and signals completion exactly once. -/
theorem hints_chain (cfg : RunCfg) (oracle : Nat → TtsBeh) (st : SeqState) (t fuel : Nat)
    (hf : 3 ≤ fuel) (hrun : st.running = true) (hgen : st.gen = t) (hcb : st.cbSet = true)
    (hp : st.pending = some (.doHints t)) : Completes cfg oracle fuel st := by
  obtain ⟨f, rfl⟩ : ∃ f, fuel = f + 3 := ⟨fuel - 3, by omega⟩
  obtain ⟨g, run, cb, pend, ev, tts⟩ := st
  simp only at hrun hgen hcb hp
  subst hrun hgen hcb hp
  unfold Completes
  rw [show f + 3 = (f + 2) + 1 from rfl, runSteps_some cfg oracle (f + 2) _ _ rfl]
  simp only [fire, doHintsStep, afterHintsStep, emit, valid, beq_self_eq_true,
    Bool.and_self, if_true]
  rw [show f + 2 = (f + 1) + 1 from rfl, runSteps_some cfg oracle (f + 1) _ _ rfl]
  simp only [fire, doExtrasStep, afterExtrasStep, finishStep, emit, valid,
    beq_self_eq_true, Bool.and_self, if_true]
  by_cases hauto : cfg.auto_mode
  · simp only [hauto, if_true]
    rw [show f + 1 = f + 1 from rfl, runSteps_some cfg oracle f _ _ rfl]
    simp only [fire, autoFinishStep, finishStep, emit, valid, beq_self_eq_true,
      Bool.and_self, if_true]
    rw [runSteps_none cfg oracle f _ rfl]
    refine ⟨rfl, rfl, ?_⟩
    simp [countFinished, List.count_cons]
  · simp only [hauto, Bool.false_eq_true, if_false]
    rw [runSteps_none cfg oracle (f + 1) _ rfl]
    refine ⟨rfl, rfl, ?_⟩
    simp [countFinished, List.count_cons]

/-- From a live run whose scheduled closure is the continuation of a repeat
with `k + 1` plays left (`_after_one`, needing at most `2k + 5` more event
loop iterations) or that repeat's `_play_n` (needing at most `2k + 6`), the
event loop always completes and signals completion exactly once, whatever the
injected audio callback does. -/
theorem play_chain (cfg : RunCfg) (oracle : Nat → TtsBeh) : ∀ k : Nat,
    (∀ st t fuel, 2 * k + 5 ≤ fuel → st.running = true → st.gen = t → st.cbSet = true →
      st.pending = some (.afterOne t ((k : Int) + 1)) → Completes cfg oracle fuel st) ∧
    (∀ st t fuel, 2 * k + 6 ≤ fuel → st.running = true → st.gen = t → st.cbSet = true →
      st.pending = some (.playN t ((k : Int) + 1)) → Completes cfg oracle fuel st) := by
  intro k
  induction k with
  | zero =>
      have hA : ∀ st t fuel, 2 * 0 + 5 ≤ fuel → st.running = true → st.gen = t →
          st.cbSet = true → st.pending = some (.afterOne t ((0 : Nat) + 1)) →
          Completes cfg oracle fuel st := by
        intro st t fuel hf hrun hgen hcb hp
        obtain ⟨f, rfl⟩ : ∃ f, fuel = f + 1 := ⟨fuel - 1, by omega⟩
        obtain ⟨g, run, cb, pend, ev, tts⟩ := st
        simp only at hrun hgen hcb hp
        subst hrun hgen hcb hp
        unfold Completes
        rw [runSteps_some cfg oracle f _ _ rfl]
        simp only [fire, afterOneStep, afterRepeatsStep, valid, beq_self_eq_true,
          Bool.and_self, if_true]
        rw [if_neg (by omega)]
        have := hints_chain cfg oracle
          ⟨g, true, true, some (.doHints g), ev, tts⟩ g f (by omega) rfl rfl rfl rfl
        unfold Completes at this
        simpa [countFinished] using this
      refine ⟨by exact_mod_cast hA, ?_⟩
      intro st t fuel hf hrun hgen hcb hp
      obtain ⟨f, rfl⟩ : ∃ f, fuel = f + 1 := ⟨fuel - 1, by omega⟩
      obtain ⟨g, run, cb, pend, ev, tts⟩ := st
      simp only at hrun hgen hcb hp
      subst hrun hgen hcb hp
      unfold Completes
      rw [runSteps_some cfg oracle f _ _ rfl]
      simp only [fire, playNStep, valid, beq_self_eq_true, Bool.and_self, if_true]
      cases hb : oracle tts with
      | callsCont =>
          simp only [afterOneStep, afterRepeatsStep, emit, valid, beq_self_eq_true,
            Bool.and_self, if_true]
          rw [if_neg (by omega)]
          have := hints_chain cfg oracle
            ⟨g, true, true, some (.doHints g), .playAudio cfg.glyph :: ev, tts + 1⟩ g f
            (by omega) rfl rfl rfl rfl
          unfold Completes at this
          simpa [countFinished, List.count_cons] using this
      | raises =>
          simp only [emit]
          have := hA
            ⟨g, true, true, some (.afterOne g ((0 : Nat) + 1)), .playAudio cfg.glyph :: ev,
              tts + 1⟩ g f (by omega) rfl rfl rfl (by norm_num)
          unfold Completes at this
          simpa [countFinished, List.count_cons] using this
  | succ j ih =>
      have hA : ∀ st t fuel, 2 * (j + 1) + 5 ≤ fuel → st.running = true → st.gen = t →
          st.cbSet = true → st.pending = some (.afterOne t (((j + 1 : Nat) : Int) + 1)) →
          Completes cfg oracle fuel st := by
        intro st t fuel hf hrun hgen hcb hp
        obtain ⟨f, rfl⟩ : ∃ f, fuel = f + 1 := ⟨fuel - 1, by omega⟩
        obtain ⟨g, run, cb, pend, ev, tts⟩ := st
        simp only at hrun hgen hcb hp
        subst hrun hgen hcb hp
        unfold Completes
        rw [runSteps_some cfg oracle f _ _ rfl]
        simp only [fire, afterOneStep, afterRepeatsStep, valid, beq_self_eq_true,
          Bool.and_self, if_true]
        rw [if_pos (by push_cast; omega),
          show ((j + 1 : Nat) : Int) + 1 - 1 = ((j : Nat) : Int) + 1 by push_cast; ring]
        have := ih.2 ⟨g, true, true, some (.playN g ((j : Nat) + 1)), ev, tts⟩ g f
          (by omega) rfl rfl rfl rfl
        unfold Completes at this
        simpa [countFinished] using this
      refine ⟨hA, ?_⟩
      intro st t fuel hf hrun hgen hcb hp
      obtain ⟨f, rfl⟩ : ∃ f, fuel = f + 1 := ⟨fuel - 1, by omega⟩
      obtain ⟨g, run, cb, pend, ev, tts⟩ := st
      simp only at hrun hgen hcb hp
      subst hrun hgen hcb hp
      unfold Completes
      rw [runSteps_some cfg oracle f _ _ rfl]
      simp only [fire, playNStep, valid, beq_self_eq_true, Bool.and_self, if_true]
      cases hb : oracle tts with
      | callsCont =>
          simp only [afterOneStep, afterRepeatsStep, emit, valid, beq_self_eq_true,
            Bool.and_self, if_true]
          rw [if_pos (by push_cast; omega),
            show ((j + 1 : Nat) : Int) + 1 - 1 = ((j : Nat) : Int) + 1 by push_cast; ring]
          have := ih.2
            ⟨g, true, true, some (.playN g ((j : Nat) + 1)), .playAudio cfg.glyph :: ev,
              tts + 1⟩ g f (by omega) rfl rfl rfl rfl
          unfold Completes at this
          simpa [countFinished, List.count_cons] using this
      | raises =>
          simp only [emit]
          have := hA
            ⟨g, true, true, some (.afterOne g (((j + 1 : Nat) : Int) + 1)),
              .playAudio cfg.glyph :: ev, tts + 1⟩ g f (by omega) rfl rfl rfl rfl
          unfold Completes at this
          simpa [countFinished, List.count_cons] using this

end Playback

/-- Claim C2: for every glyph, every `repeat_count >= 1`, every non-negative
`DelaysConfig`, either auto mode, and every behaviour of the injected
play-audio callback (each call either invokes its continuation exactly once
or raises), `start()` from a fresh controller with a registered
finished-callback followed by running every scheduled step to completion
(any sufficient fuel) drains the timer queue, stops running, and invokes the
finished-callback exactly once. -/
theorem claim_C2_completion :
    ∀ (glyph : String) (r : Int) (delays : Playback.DelaysConfig) (auto : Bool)
      (oracle : Nat → Playback.TtsBeh),
      1 ≤ r →
      0 ≤ delays.pre_first_ms → 0 ≤ delays.between_reps_ms → 0 ≤ delays.before_hints_ms →
      0 ≤ delays.before_extras_ms → 0 ≤ delays.auto_advance_ms →
      ∀ fuel, 2 * r.toNat + 8 ≤ fuel →
        (Playback.runSteps ⟨glyph, auto⟩ oracle fuel
          (Playback.start oracle glyph r delays auto Playback.initState)).pending = none ∧
        (Playback.runSteps ⟨glyph, auto⟩ oracle fuel
          (Playback.start oracle glyph r delays auto Playback.initState)).running = false ∧
        Playback.countFinished (Playback.runSteps ⟨glyph, auto⟩ oracle fuel
          (Playback.start oracle glyph r delays auto Playback.initState)) = 1 := by
  intro glyph r delays auto oracle hr hd1 hd2 hd3 hd4 hd5 fuel hfuel
  have hk : ∃ k : Nat, max 1 r = (k : Int) + 1 ∧ k = r.toNat - 1 := by
    refine ⟨r.toNat - 1, ?_, rfl⟩
    omega
  obtain ⟨k, hmax, hkval⟩ := hk
  have hstart : Playback.start oracle glyph r delays auto Playback.initState =
      (if 0 < delays.pre_first_ms then
        { gen := 1, running := true, cbSet := true,
          pending := some (Playback.Step.playN 1 ((k : Int) + 1)), events := [], ttsCalls := 0 }
       else Playback.playNStep ⟨glyph, auto⟩ oracle 1 ((k : Int) + 1)
        { gen := 1, running := true, cbSet := true, pending := none,
          events := [], ttsCalls := 0 }) := by
    rw [Playback.start]
    rw [show Playback.cancel Playback.initState =
      { gen := 1, running := false, cbSet := true, pending := none,
        events := [], ttsCalls := 0 } from rfl]
    rw [hmax]
  by_cases hpre : 0 < delays.pre_first_ms
  · rw [hstart, if_pos hpre]
    have := (Playback.play_chain ⟨glyph, auto⟩ oracle k).2
      { gen := 1, running := true, cbSet := true,
        pending := some (Playback.Step.playN 1 ((k : Int) + 1)), events := [], ttsCalls := 0 }
      1 fuel (by omega) rfl rfl rfl rfl
    unfold Playback.Completes at this
    simpa [Playback.countFinished] using this
  · rw [hstart, if_neg hpre]
    have hchain := (Playback.play_chain ⟨glyph, auto⟩ oracle k).2
      { gen := 1, running := true, cbSet := true,
        pending := some (Playback.Step.playN 1 ((k : Int) + 1)), events := [], ttsCalls := 0 }
      1 (fuel + 1) (by omega) rfl rfl rfl rfl
    unfold Playback.Completes at hchain
    rw [Playback.runSteps_some ⟨glyph, auto⟩ oracle fuel _ _ rfl] at hchain
    simpa [Playback.fire, Playback.countFinished] using hchain

/-- Witness for C2: glyph "가", two repeats, zero delays, synchronous audio. -/
theorem claim_C2_completion_witness :
    (Playback.runSteps ⟨"가", false⟩ (fun _ => Playback.TtsBeh.callsCont) 12
      (Playback.start (fun _ => Playback.TtsBeh.callsCont) "가" 2 ⟨0, 0, 0, 0, 0⟩ false
        Playback.initState)).pending = none ∧
    (Playback.runSteps ⟨"가", false⟩ (fun _ => Playback.TtsBeh.callsCont) 12
      (Playback.start (fun _ => Playback.TtsBeh.callsCont) "가" 2 ⟨0, 0, 0, 0, 0⟩ false
        Playback.initState)).running = false ∧
    Playback.countFinished (Playback.runSteps ⟨"가", false⟩ (fun _ => Playback.TtsBeh.callsCont) 12
      (Playback.start (fun _ => Playback.TtsBeh.callsCont) "가" 2 ⟨0, 0, 0, 0, 0⟩ false
        Playback.initState)) = 1 :=
  claim_C2_completion "가" 2 ⟨0, 0, 0, 0, 0⟩ false (fun _ => Playback.TtsBeh.callsCont)
    (by decide) (by decide) (by decide) (by decide) (by decide) (by decide) 12 (by decide)

/-- Claim C3: `cancel()` invokes the registered completion callback exactly
once when a run was active and invokes nothing otherwise; with no active run
the only state change is the generation-token increment; in both cases the
token increases by one and `is_running()` is false afterwards. -/
theorem claim_C3_cancel :
    ∀ st : Playback.SeqState, st.cbSet = true →
      (Playback.is_running st = true →
        (Playback.cancel st).events = Playback.Event.finished :: st.events) ∧
      (Playback.is_running st = false →
        Playback.cancel st = { st with gen := st.gen + 1 }) ∧
      Playback.countFinished (Playback.cancel st) =
        Playback.countFinished st + (if Playback.is_running st then 1 else 0) ∧
      (Playback.cancel st).gen = st.gen + 1 ∧
      Playback.is_running (Playback.cancel st) = false := by
  intro st hcb
  obtain ⟨g, run, cb, pend, ev, tts⟩ := st
  simp only at hcb
  subst hcb
  cases run <;>
    simp [Playback.cancel, Playback.is_running, Playback.countFinished, Playback.emit,
      List.count_cons]

/-- Witness for C3 on a running controller with a registered callback. -/
theorem claim_C3_cancel_witness :
    (Playback.is_running ⟨0, true, true, none, [], 0⟩ = true →
      (Playback.cancel ⟨0, true, true, none, [], 0⟩).events =
        Playback.Event.finished :: Playback.SeqState.events ⟨0, true, true, none, [], 0⟩) ∧
    (Playback.is_running ⟨0, true, true, none, [], 0⟩ = false →
      Playback.cancel ⟨0, true, true, none, [], 0⟩ =
        { (⟨0, true, true, none, [], 0⟩ : Playback.SeqState) with
            gen := Playback.SeqState.gen ⟨0, true, true, none, [], 0⟩ + 1 }) ∧
    Playback.countFinished (Playback.cancel ⟨0, true, true, none, [], 0⟩) =
      Playback.countFinished ⟨0, true, true, none, [], 0⟩ +
        (if Playback.is_running ⟨0, true, true, none, [], 0⟩ then 1 else 0) ∧
    (Playback.cancel ⟨0, true, true, none, [], 0⟩).gen =
      Playback.SeqState.gen ⟨0, true, true, none, [], 0⟩ + 1 ∧
    Playback.is_running (Playback.cancel ⟨0, true, true, none, [], 0⟩) = false :=
  claim_C3_cancel ⟨0, true, true, none, [], 0⟩ rfl

/-- Claim C1 (evaluation of the failing scenario): an auto-mode run that has
already scheduled its auto-advance closure, then is invalidated by `cancel()`
(running flag cleared, generation token bumped past the captured token 1),
still invokes the injected auto-advance callback when the stale closure
fires — the `lambda: (self._on_autoadvance(), _finish())` closure re-checks
nothing before calling `self._on_autoadvance()`.  Only the sequencer's own
state stays untouched (`_finish()` is a no-op). -/
theorem claim_C1_stale_autoadvance :
    let oracle : Nat → Playback.TtsBeh := fun _ => Playback.TtsBeh.callsCont
    let cfg : Playback.RunCfg := ⟨"가", true⟩
    let stA := Playback.runSteps cfg oracle 2
      (Playback.start oracle "가" 1 ⟨0, 0, 0, 0, 0⟩ true Playback.initState)
    let stB := Playback.cancel stA
    let stC := Playback.runSteps cfg oracle 1 stB
    stA.pending = some (Playback.Step.autoFinish 1) ∧
    stB.running = false ∧ stB.gen = 2 ∧ stB.pending = some (Playback.Step.autoFinish 1) ∧
    stC.events = Playback.Event.autoAdvance :: stB.events ∧
    stC.gen = stB.gen ∧ stC.running = stB.running := by
  decide
